import Mathlib

/-!
Shallow embedding of `src/Templates/Cpp-Templates/PerfTimer.h` (class `PerfTimer`).

Doubles are idealised as exact rationals `ℚ`; the monotonic clock is modelled by
passing the current timestamp explicitly to each call (`high_resolution_clock::
time_point` default-constructs to the clock epoch, modelled as `0`).  Console
output (`std::cout` / `std::cerr`) does not affect timer state and is modelled
only where a claim depends on it.  Undefined behaviour (dereferencing the end
iterator returned by `std::minmax_element` on an empty range, `operator[]` past
the end of a `std::vector`) is modelled by `Option`, with `none` marking the
path on which the C++ has no defined result.
-/

namespace PerfTimer

/-- State of a `PerfTimer` object: fields `_startTime` (line 92), `_timeDiff`
(line 95), `_activeTimer` (line 99) and `_name` (line 102) of the class. -/
structure State where
  _startTime : ℚ
  _timeDiff : List ℚ
  _activeTimer : Bool
  _name : String
deriving DecidableEq, Repr

/-- Constructor `PerfTimer::PerfTimer` (lines 135-139): `_activeTimer` is set to
`false`, `_name` to the given name; `_startTime` is default-constructed (the
clock epoch, i.e. `0`) and `_timeDiff` is empty. -/
def init (name : String) : State :=
  { _startTime := 0, _timeDiff := [], _activeTimer := false, _name := name }

/-- `PerfTimer::startTimer` (lines 143-154): if `_activeTimer` is true it only
prints a diagnostic and changes nothing; otherwise it stores the current clock
value in `_startTime`.  Note that the source never assigns `true` to
`_activeTimer` anywhere in this function. -/
def startTimer (now : ℚ) (s : State) : State :=
  if s._activeTimer then
    s
  else
    { s with _startTime := now }

/-- `PerfTimer::stopTimer` (lines 158-165): unconditionally appends
`now() - _startTime` to `_timeDiff` and sets `_activeTimer := false`.  There is
no check that a start actually preceded this stop. -/
def stopTimer (now : ℚ) (s : State) : State :=
  { s with
      _timeDiff := s._timeDiff ++ [now - s._startTime],
      _activeTimer := false }

/-- `std::accumulate(_timeDiff.begin(), _timeDiff.end(), 0.)` (lines 172, 284):
a left fold of `+` starting from `0`. -/
def accumulate (l : List ℚ) : ℚ :=
  l.foldl (fun a x => a + x) 0

/-- `std::minmax_element` (line 175): on an empty range both iterators equal
`end()` and dereferencing them is undefined, modelled by `none`; on a non-empty
range it yields the smallest and largest element. -/
def minmax_element : List ℚ → Option (ℚ × ℚ)
  | [] => none
  | x :: xs => some (xs.foldl (fun p y => (min p.1 y, max p.2 y)) (x, x))

/-- The radicand computed by `PerfTimer::_standardDeviation` (lines 282-292):
`sum` and `mean` of `_timeDiff`, the vector `diff` of deviations from the mean,
`sq_sum` = inner product of `diff` with itself, divided by the size.  The
function returns `std::sqrt` of this value; the square root lives in `ℝ` and is
applied in the theorems (`Real.sqrt`). -/
def _standardDeviationSq (l : List ℚ) : ℚ :=
  let sum := accumulate l
  let mean := sum / (l.length : ℚ)
  let diff := l.map (fun x => x - mean)
  let sq_sum := diff.foldl (fun a x => a + x * x) 0
  sq_sum / (l.length : ℚ)

/-- `PerfTimer::_converter` (lines 239-277), generic over the ordered field used
to idealise `double`.  Thresholds `1.0E3`, `1.0E6`, `1.0E9`, `6.0E11`,
`1.08E13`; scale factors `1`, `1.E-3`, `1.E-6`, `1.E-9`, `1.E-9/60`,
`1.E-9/3600`; unit strings `"ns"`, `"µs"`, `"ms"`, `"s"`, `"mins"`,
`"hrs"`. -/
def _converter {α : Type} [LinearOrderedField α] (time : α) : α × String :=
  if time ≤ 1000 then
    (time, "ns")
  else if time ≤ 1000000 then
    (time * (1 / 1000), "µs")
  else if time ≤ 1000000000 then
    (time * (1 / 1000000), "ms")
  else if time ≤ 600000000000 then
    (time * (1 / 1000000000), "s")
  else if time ≤ 10800000000000 then
    (time * ((1 / 1000000000) / 60), "mins")
  else
    (time * ((1 / 1000000000) / 3600), "hrs")

/-- The raw statistics computed at the top of `PerfTimer::reportStats`
(lines 171-177), before unit conversion.  `stdDevSq` is the radicand of the
standard deviation (see `_standardDeviationSq`). -/
structure RawStats where
  nTrials : ℕ
  totalTime : ℚ
  avgTime : ℚ
  stdDevSq : ℚ
  minTime : ℚ
  maxTime : ℚ
deriving DecidableEq, Repr

/-- The statistics block of `PerfTimer::reportStats` (lines 169-194).  On an
empty `_timeDiff` the mean is `0.0/0` (NaN) and `*minMax.first` /
`*minMax.second` dereference the end iterator — undefined behaviour, modelled by
`none`.  The computed values are then each passed through `_converter` before
printing; that step is stated in the theorems. -/
def computeStats (l : List ℚ) : Option RawStats :=
  match minmax_element l with
  | none => none
  | some mm =>
      some
        { nTrials := l.length
          totalTime := accumulate l
          avgTime := accumulate l / (l.length : ℚ)
          stdDevSq := _standardDeviationSq l
          minTime := mm.1
          maxTime := mm.2 }

/-- The sample line written by `PerfTimer::saveTimingData` (lines 219-227): it
streams `_timeDiff[0]` unconditionally — out of bounds on an empty vector,
modelled by `none` — and only then guards the loop over indices `1..size` with
`if (_timeDiff.size() > 0)`. -/
def sampleLineValues (l : List ℚ) : Option (List ℚ) :=
  match l[0]? with
  | none => none
  | some x0 => some (x0 :: (if 0 < l.length then l.drop 1 else []))

/-- Observable outcome of `PerfTimer::saveTimingData` (lines 198-231):
whether any failure reaches the caller, which console message is printed by the
open check, and what is streamed into the sink. -/
structure SaveOutcome where
  errorSurfaced : Bool
  consoleMsg : String
  headerWritten : Bool
  samplesWritten : Option (List ℚ)
deriving DecidableEq, Repr

/-- `PerfTimer::saveTimingData` (lines 198-231).  The `is_open()` check
(lines 204-213) only chooses a console message and neither returns early nor
stops the export; `reportStats(saveFile)` (line 216) and the sample line
(lines 219-227) are written to the sink unconditionally, and the function
returns `void`, so no error ever reaches the caller. -/
def saveTimingData (openOk : Bool) (l : List ℚ) : SaveOutcome :=
  { errorSurfaced := false
    consoleMsg :=
      if openOk then "yes Im open"
      else "PerfTimer output file failed to open"
    headerWritten := true
    samplesWritten := sampleLineValues l }

/-- A `double` streamed with `operator<<` and no explicit precision is printed
with the stream default of six significant decimal digits (`%g`-style
formatting); `saveTimingData` sets no precision on `saveFile`, so every sample
on the third line is subject to this rounding.  The value denoted by the
printed decimal text is the original value rounded to six significant digits:
for non-zero `q` with decimal exponent `e = Int.log 10 |q|`, the text denotes
`round (|q| / 10 ^ (e - 5)) * 10 ^ (e - 5)`, sign restored.  (For values not
exactly representable in six digits the C library rounds the exact binary
value; the tie convention is immaterial to the statements below, which either
avoid ties or assume the value is fixed by the rounding.) -/
def sigRound6 (q : ℚ) : ℚ :=
  if q = 0 then 0
  else
    (if q < 0 then -1 else 1) *
      ((round (|q| / (10 : ℚ) ^ (Int.log 10 |q| - 5)) : ℤ) : ℚ) *
        (10 : ℚ) ^ (Int.log 10 |q| - 5)

/-- The numeric values denoted by the third line of the export file after
splitting it on commas and re-parsing each field: the values streamed by
`sampleLineValues`, each as printed at the default six-significant-digit
precision. -/
def savedThirdLine (l : List ℚ) : Option (List ℚ) :=
  (sampleLineValues l).map (fun xs => xs.map sigRound6)

/-- The four public operations, for quantifying over call sequences.  `start`
and `stop` carry the clock value observed during the call; `save` carries
whether the sink could be opened. -/
inductive Op where
  | start (now : ℚ)
  | stop (now : ℚ)
  | report
  | save (openOk : Bool)

/-- Effect of one public call on the timer state.  `reportStats` and
`saveTimingData` read `_timeDiff` but mutate nothing. -/
def applyOp (s : State) : Op → State
  | .start t => startTimer t s
  | .stop t => stopTimer t s
  | .report => s
  | .save _ => s

/-- The state after a sequence of public calls on a freshly constructed
timer. -/
def runOps (name : String) (ops : List Op) : State :=
  ops.foldl applyOp (init name)

end PerfTimer

open PerfTimer

/-! ## Helper lemmas -/

lemma applyOp_unarmed (s : State) (op : Op) (h : s._activeTimer = false) :
    (applyOp s op)._activeTimer = false := by
  cases op with
  | start t => simp [applyOp, startTimer, h]
  | stop t => simp [applyOp, stopTimer]
  | report => exact h
  | save b => exact h

lemma foldl_applyOp_unarmed (ops : List Op) (s : State)
    (h : s._activeTimer = false) :
    (ops.foldl applyOp s)._activeTimer = false := by
  induction ops generalizing s with
  | nil => exact h
  | cons op ops ih => exact ih _ (applyOp_unarmed s op h)

lemma runOps_unarmed (name : String) (ops : List Op) :
    (runOps name ops)._activeTimer = false :=
  foldl_applyOp_unarmed ops (init name) rfl

/-! ## Claims C1-C5 -/

/-- C1: the claim says a start call on an unarmed timer records the timestamp
as the start mark **and sets `armed = true`**, so that `armed` is true strictly
between a successful start and its matching stop.  The code records the mark
but never assigns `true` to `_activeTimer`: the flag is unchanged by
`startTimer` from every state, and after a successful start on a fresh timer it
is still `false`. -/
theorem startTimer_never_arms :
    (∀ (t : ℚ) (s : State), (startTimer t s)._activeTimer = s._activeTimer) ∧
    (startTimer 3 (init "T"))._startTime = 3 ∧
    (startTimer 3 (init "T"))._activeTimer = false := by
  refine ⟨fun t s => ?_, rfl, rfl⟩
  unfold startTimer
  split <;> rfl

/-- C2: the claim says `stop` on an unarmed timer fails with `InvalidState`.
The code has no such check: from every state, armed or not, `stopTimer`
computes `now - _startTime` and appends it; on a timer that was never started
it appends a sample measured from the default-constructed (epoch) start
mark. -/
theorem stopTimer_without_start_appends :
    (∀ (t : ℚ) (s : State),
      (stopTimer t s)._timeDiff = s._timeDiff ++ [t - s._startTime]) ∧
    (stopTimer 5 (init "T"))._timeDiff = [5] := by
  exact ⟨fun t s => rfl, by norm_num [stopTimer, init]⟩

/-- C3: the claim says `reportStats` on an empty sample sequence fails with
`NoSamples`.  The code has no emptiness check: on the empty sequence the mean
is `0.0/0` and the extrema dereference the end iterator returned by
`minmax_element` — the statistics block has no defined result (`none`), and no
`NoSamples` error exists anywhere in the source. -/
theorem reportStats_empty_unguarded :
    computeStats [] = none ∧ minmax_element [] = none :=
  ⟨rfl, rfl⟩

/-- C4: the claim says `saveTimingData` on an empty sample sequence fails with
`NoSamples` and never reads element 0.  The code streams `_timeDiff[0]` before
its `size() > 0` guard, an out-of-bounds read on the empty vector (`none`), and
still surfaces no error. -/
theorem saveTimingData_empty_oob :
    sampleLineValues [] = none ∧
    (saveTimingData true []).samplesWritten = none ∧
    (saveTimingData true []).errorSurfaced = false :=
  ⟨rfl, rfl, rfl⟩

/-- C5: the claim says that when the sink cannot be opened, `saveTimingData`
fails the whole export with an `IOError` and writes nothing into the unopened
sink.  The code only prints a console message on open failure, then writes the
header and the sample line into the sink anyway, and returns `void`, surfacing
no error to the caller. -/
theorem saveTimingData_open_failure_ignored (l : List ℚ) :
    (saveTimingData false l).errorSurfaced = false ∧
    (saveTimingData false l).headerWritten = true ∧
    (saveTimingData false l).samplesWritten = sampleLineValues l :=
  ⟨rfl, rfl, rfl⟩

/-! ## Claim C10 -/

/-- C10: in every state reachable by any sequence of public calls after
construction, `_activeTimer` is `false` (so the "timer is already active"
branch of `startTimer` is unreachable), every `startTimer` call from a
reachable state overwrites the start mark, and every `stopTimer` call appends
exactly one sample. -/
theorem activeTimer_always_false (name : String) (ops : List Op) (t : ℚ) :
    (runOps name ops)._activeTimer = false ∧
    (startTimer t (runOps name ops))._startTime = t ∧
    (stopTimer t (runOps name ops))._timeDiff
      = (runOps name ops)._timeDiff ++ [t - (runOps name ops)._startTime] := by
  have h := runOps_unarmed name ops
  refine ⟨h, ?_, rfl⟩
  unfold startTimer
  rw [h]
  simp

/-! ## Helper lemmas for the statistics block -/

lemma foldl_add_eq (l : List ℚ) (a : ℚ) :
    l.foldl (fun b x => b + x) a = a + l.sum := by
  induction l generalizing a with
  | nil => simp
  | cons x xs ih => rw [List.foldl_cons, ih, List.sum_cons]; ring

lemma accumulate_eq_sum (l : List ℚ) : accumulate l = l.sum := by
  rw [accumulate, foldl_add_eq, zero_add]

lemma foldl_sq_eq (l : List ℚ) (a : ℚ) :
    l.foldl (fun b x => b + x * x) a = a + (l.map (fun x => x ^ 2)).sum := by
  induction l generalizing a with
  | nil => simp
  | cons x xs ih => rw [List.foldl_cons, ih, List.map_cons, List.sum_cons]; ring

lemma stdDevSq_eq (l : List ℚ) :
    _standardDeviationSq l
      = (l.map (fun x => (x - l.sum / (l.length : ℚ)) ^ 2)).sum
          / (l.length : ℚ) := by
  show (((l.map (fun x => x - accumulate l / (l.length : ℚ))).foldl
      (fun a x => a + x * x) 0) / (l.length : ℚ)) = _
  rw [foldl_sq_eq, zero_add, List.map_map, accumulate_eq_sum]
  rfl

lemma foldl_min_le_start (xs : List ℚ) (a : ℚ) : xs.foldl min a ≤ a := by
  induction xs generalizing a with
  | nil => simp
  | cons x xs ih => exact le_trans (ih (min a x)) (min_le_left a x)

lemma foldl_min_le_mem (xs : List ℚ) (a x : ℚ) (hx : x ∈ xs) :
    xs.foldl min a ≤ x := by
  induction xs generalizing a with
  | nil => cases hx
  | cons y ys ih =>
    rcases List.mem_cons.mp hx with h | h
    · subst h
      exact le_trans (foldl_min_le_start ys (min a x)) (min_le_right a x)
    · exact ih _ h

lemma foldl_min_mem (xs : List ℚ) (a : ℚ) : xs.foldl min a ∈ a :: xs := by
  induction xs generalizing a with
  | nil => simp
  | cons x xs ih =>
    rw [List.foldl_cons]
    rcases List.mem_cons.mp (ih (min a x)) with h | h
    · rcases min_choice a x with hm | hm <;> rw [h, hm] <;> simp
    · simp [h]

lemma foldl_max_start_le (xs : List ℚ) (a : ℚ) : a ≤ xs.foldl max a := by
  induction xs generalizing a with
  | nil => simp
  | cons x xs ih => exact le_trans (le_max_left a x) (ih (max a x))

lemma foldl_max_mem_le (xs : List ℚ) (a x : ℚ) (hx : x ∈ xs) :
    x ≤ xs.foldl max a := by
  induction xs generalizing a with
  | nil => cases hx
  | cons y ys ih =>
    rcases List.mem_cons.mp hx with h | h
    · subst h
      exact le_trans (le_max_right a x) (foldl_max_start_le ys (max a x))
    · exact ih _ h

lemma foldl_max_mem (xs : List ℚ) (a : ℚ) : xs.foldl max a ∈ a :: xs := by
  induction xs generalizing a with
  | nil => simp
  | cons x xs ih =>
    rw [List.foldl_cons]
    rcases List.mem_cons.mp (ih (max a x)) with h | h
    · rcases max_choice a x with hm | hm <;> rw [h, hm] <;> simp
    · simp [h]

lemma minmax_foldl_fst (xs : List ℚ) (p : ℚ × ℚ) :
    (xs.foldl (fun q y => (min q.1 y, max q.2 y)) p).1 = xs.foldl min p.1 := by
  induction xs generalizing p with
  | nil => rfl
  | cons x xs ih => rw [List.foldl_cons, List.foldl_cons, ih]

lemma minmax_foldl_snd (xs : List ℚ) (p : ℚ × ℚ) :
    (xs.foldl (fun q y => (min q.1 y, max q.2 y)) p).2 = xs.foldl max p.2 := by
  induction xs generalizing p with
  | nil => rfl
  | cons x xs ih => rw [List.foldl_cons, List.foldl_cons, ih]

lemma minmax_element_spec (x : ℚ) (xs : List ℚ) :
    ∃ mm : ℚ × ℚ, minmax_element (x :: xs) = some mm ∧
      mm.1 ∈ x :: xs ∧ (∀ y ∈ x :: xs, mm.1 ≤ y) ∧
      mm.2 ∈ x :: xs ∧ (∀ y ∈ x :: xs, y ≤ mm.2) := by
  refine ⟨_, rfl, ?_, ?_, ?_, ?_⟩
  · rw [minmax_foldl_fst]
    exact foldl_min_mem xs x
  · intro y hy
    rw [minmax_foldl_fst]
    rcases List.mem_cons.mp hy with h | h
    · subst h; exact foldl_min_le_start xs y
    · exact foldl_min_le_mem xs x y h
  · rw [minmax_foldl_snd]
    exact foldl_max_mem xs x
  · intro y hy
    rw [minmax_foldl_snd]
    rcases List.mem_cons.mp hy with h | h
    · subst h; exact foldl_max_start_le xs y
    · exact foldl_max_mem_le xs x y h

/-! ## Claim C6 -/

/-- C6: on every non-empty sample sequence the statistics block yields
count = length, total = sum, mean = total / count, the population variance
(divide by count, not count − 1) as the radicand of the standard deviation,
and min / max = the extrema; on `[100, 200, 300]` it yields total 600, mean
200, variance 20000/3 (so standard deviation √(20000/3) ≈ 81.65), min 100,
max 300, and each of these values is reported in the finest unit `"ns"`. -/
theorem reportStats_computes_descriptive_stats :
    (∀ l : List ℚ, l ≠ [] → ∃ r : RawStats, computeStats l = some r ∧
      r.nTrials = l.length ∧
      r.totalTime = l.sum ∧
      r.avgTime = l.sum / (l.length : ℚ) ∧
      r.stdDevSq
        = (l.map (fun x => (x - l.sum / (l.length : ℚ)) ^ 2)).sum
            / (l.length : ℚ) ∧
      r.minTime ∈ l ∧ (∀ x ∈ l, r.minTime ≤ x) ∧
      r.maxTime ∈ l ∧ (∀ x ∈ l, x ≤ r.maxTime)) ∧
    (computeStats [100, 200, 300]
        = some ⟨3, 600, 200, 20000 / 3, 100, 300⟩ ∧
      _converter (600 : ℚ) = (600, "ns") ∧
      _converter (200 : ℚ) = (200, "ns") ∧
      _converter (100 : ℚ) = (100, "ns") ∧
      _converter (300 : ℚ) = (300, "ns") ∧
      _converter (Real.sqrt (20000 / 3)) = (Real.sqrt (20000 / 3), "ns") ∧
      (8164 / 100 : ℝ) < Real.sqrt (20000 / 3) ∧
      Real.sqrt (20000 / 3) < 8166 / 100) := by
  constructor
  · intro l hl
    obtain ⟨x, xs, rfl⟩ := List.exists_cons_of_ne_nil hl
    obtain ⟨mm, hmm, h1, h2, h3, h4⟩ := minmax_element_spec x xs
    refine ⟨⟨(x :: xs).length, accumulate (x :: xs),
        accumulate (x :: xs) / ((x :: xs).length : ℚ),
        _standardDeviationSq (x :: xs), mm.1, mm.2⟩,
      ?_, rfl, ?_, ?_, ?_, h1, h2, h3, h4⟩
    · simp only [computeStats, hmm]
    · exact accumulate_eq_sum _
    · rw [accumulate_eq_sum]
    · exact stdDevSq_eq _
  · have hle : Real.sqrt (20000 / 3) ≤ 1000 := by
      have h1 : Real.sqrt (20000 / 3) ≤ Real.sqrt 1000000 :=
        Real.sqrt_le_sqrt (by norm_num)
      have h2 : Real.sqrt 1000000 = 1000 := by
        rw [show (1000000 : ℝ) = 1000 ^ 2 by norm_num,
          Real.sqrt_sq (by norm_num : (0 : ℝ) ≤ 1000)]
      linarith
    refine ⟨?_, ?_, ?_, ?_, ?_, ?_, ?_, ?_⟩
    · norm_num [computeStats, minmax_element, accumulate,
        _standardDeviationSq, min_def, max_def]
    · norm_num [_converter]
    · norm_num [_converter]
    · norm_num [_converter]
    · norm_num [_converter]
    · unfold _converter
      rw [if_pos hle]
    · rw [Real.lt_sqrt (by norm_num)]
      norm_num
    · rw [Real.sqrt_lt' (by norm_num : (0 : ℝ) < 8166 / 100)]
      norm_num

/-- Witness for C6: the universally quantified part applied to the concrete
non-empty sequence `[7]`. -/
theorem reportStats_computes_descriptive_stats_witness :
    ∃ r : RawStats, computeStats [7] = some r ∧ r.totalTime = 7 := by
  obtain ⟨r, hr, -, h3, -⟩ :=
    reportStats_computes_descriptive_stats.1 [7] (by simp)
  refine ⟨r, hr, ?_⟩
  rw [h3]
  norm_num

/-! ## Claim C7 -/

/-- C7: the unit-selection step picks exactly one tier by the fixed
thresholds: a value of at most 1.0E3 (so, exactly 1.0E3 too) keeps the finest
unit unscaled; then micro up to 1.0E6 scaled by 1e-3; milli up to 1.0E9
scaled by 1e-6; the base unit up to 6.0E11 scaled by 1e-9; minutes up to
1.08E13 scaled by 1e-9/60; and hours otherwise scaled by 1e-9/3600. -/
theorem converter_tiers (t : ℚ) :
    (t ≤ 1000 → _converter t = (t, "ns")) ∧
    (1000 < t → t ≤ 1000000 → _converter t = (t * (1 / 1000), "µs")) ∧
    (1000000 < t → t ≤ 1000000000 →
      _converter t = (t * (1 / 1000000), "ms")) ∧
    (1000000000 < t → t ≤ 600000000000 →
      _converter t = (t * (1 / 1000000000), "s")) ∧
    (600000000000 < t → t ≤ 10800000000000 →
      _converter t = (t * ((1 / 1000000000) / 60), "mins")) ∧
    (10800000000000 < t →
      _converter t = (t * ((1 / 1000000000) / 3600), "hrs")) := by
  unfold _converter
  refine ⟨fun h1 => ?_, fun h1 h2 => ?_, fun h1 h2 => ?_, fun h1 h2 => ?_,
    fun h1 h2 => ?_, fun h1 => ?_⟩
  · rw [if_pos h1]
  · rw [if_neg (not_le.mpr h1), if_pos h2]
  · rw [if_neg (not_le.mpr (by linarith)), if_neg (not_le.mpr h1), if_pos h2]
  · rw [if_neg (not_le.mpr (by linarith)), if_neg (not_le.mpr (by linarith)),
      if_neg (not_le.mpr h1), if_pos h2]
  · rw [if_neg (not_le.mpr (by linarith)), if_neg (not_le.mpr (by linarith)),
      if_neg (not_le.mpr (by linarith)), if_neg (not_le.mpr h1), if_pos h2]
  · rw [if_neg (not_le.mpr (by linarith)), if_neg (not_le.mpr (by linarith)),
      if_neg (not_le.mpr (by linarith)), if_neg (not_le.mpr (by linarith)),
      if_neg (not_le.mpr h1)]

/-- Witness for C7: the boundary value 1.0E3 keeps the finest unit, and a
value in the second tier is scaled by 1e-3 into microseconds. -/
theorem converter_tiers_witness :
    _converter (1000 : ℚ) = (1000, "ns") ∧
    _converter (500000 : ℚ) = (500, "µs") := by
  constructor
  · exact (converter_tiers 1000).1 (by norm_num)
  · have h := (converter_tiers 500000).2.1 (by norm_num) (by norm_num)
    rw [h]
    norm_num

/-! ## Claim C8 -/

/-- C8: on an already-armed timer (`_activeTimer = true`) a further start call
changes nothing beyond a diagnostic — the start mark (indeed the whole state)
is unchanged — so the next stop measures elapsed time from the original start
mark. -/
theorem startTimer_when_armed_is_noop (s : State) (t t2 : ℚ)
    (h : s._activeTimer = true) :
    startTimer t s = s ∧
    (stopTimer t2 (startTimer t s))._timeDiff
      = s._timeDiff ++ [t2 - s._startTime] := by
  have h1 : startTimer t s = s := by simp [startTimer, h]
  exact ⟨h1, by rw [h1]; rfl⟩

/-- Witness for C8: a concrete armed state with start mark 7; a later start at
3 changes nothing and the stop at 10 records `10 - 7 = 3`. -/
theorem startTimer_when_armed_is_noop_witness :
    startTimer 3 (⟨7, [], true, "T"⟩ : State) = (⟨7, [], true, "T"⟩ : State) ∧
    (stopTimer 10 (startTimer 3 (⟨7, [], true, "T"⟩ : State)))._timeDiff
      = [3] := by
  have h := startTimer_when_armed_is_noop (⟨7, [], true, "T"⟩ : State) 3 10 rfl
  refine ⟨h.1, ?_⟩
  rw [h.2]
  norm_num

/-! ## Claim C9 -/

lemma sigRound6_pos (q : ℚ) (h0 : 0 < q) :
    sigRound6 q
      = ((round (q / (10 : ℚ) ^ (Int.log 10 q - 5)) : ℤ) : ℚ) *
          (10 : ℚ) ^ (Int.log 10 q - 5) := by
  unfold sigRound6
  rw [if_neg h0.ne', if_neg (not_lt.mpr h0.le), abs_of_pos h0, one_mul]

lemma sigRound6_eq_self (q : ℚ) (e m : ℤ) (h0 : 0 < q)
    (hlog : Int.log 10 q = e) (hm : q = (m : ℚ) * (10 : ℚ) ^ (e - 5)) :
    sigRound6 q = q := by
  rw [sigRound6_pos q h0, hlog]
  have hscale : ((10 : ℚ) ^ (e - 5)) ≠ 0 := by positivity
  have hq : q / (10 : ℚ) ^ (e - 5) = (m : ℚ) := by
    rw [hm, mul_div_assoc, div_self hscale, mul_one]
  rw [hq, round_intCast, ← hm]

/-- C9 counterexample: the export stream has the default precision of six
significant decimal digits, so the raw sample `1234567` is written as
`1.23457e+06`; re-parsing the third line yields `1234570`, not the original
value — the round-trip of the claim fails. -/
theorem export_roundtrip_counterexample :
    savedThirdLine [1234567] = some [1234570] ∧ (1234570 : ℚ) ≠ 1234567 := by
  have hlog : Int.log 10 (1234567 : ℚ) = 6 := by
    rw [Int.log_ofNat, show Nat.log 10 1234567 = 6 from
      Nat.log_eq_of_pow_le_of_lt_pow (by norm_num) (by norm_num)]
    rfl
  have hround : round ((1234567 : ℚ) / (10 : ℚ) ^ ((6 : ℤ) - 5)) = 123457 := by
    rw [round_eq, Int.floor_eq_iff]
    norm_num
  have hval : sigRound6 1234567 = 1234570 := by
    rw [sigRound6_pos 1234567 (by norm_num), hlog, hround]
    norm_num
  constructor
  · have hsl : sampleLineValues [1234567] = some [1234567] := rfl
    unfold savedThirdLine
    rw [hsl]
    simp [hval]
  · norm_num

/-- C9 (amended): for every non-empty sample sequence the third line of the
export file is the comma-separated list of the samples, unscaled and in
original order, each as printed at the stream's default precision of six
significant decimal digits; re-parsing the line therefore reproduces each
sample rounded to six significant digits, and reproduces the sequence exactly
whenever every sample is representable in at most six significant decimal
digits (i.e. is a fixed point of that rounding). -/
theorem export_thirdline_roundtrip :
    (∀ l : List ℚ, l ≠ [] → savedThirdLine l = some (l.map sigRound6)) ∧
    (∀ l : List ℚ, l ≠ [] → (∀ x ∈ l, sigRound6 x = x) →
      savedThirdLine l = some l) := by
  have h1 : ∀ l : List ℚ, l ≠ [] → sampleLineValues l = some l := by
    intro l hl
    obtain ⟨x, xs, rfl⟩ := List.exists_cons_of_ne_nil hl
    simp [sampleLineValues]
  constructor
  · intro l hl
    unfold savedThirdLine
    rw [h1 l hl]
    rfl
  · intro l hl hfix
    unfold savedThirdLine
    rw [h1 l hl]
    show some (l.map sigRound6) = some l
    rw [List.map_congr_left hfix]
    simp

/-- Witness for C9 (amended): the samples `[100, 200, 300]` all fit in six
significant digits, and the parsed third line reproduces them exactly. -/
theorem export_thirdline_roundtrip_witness :
    savedThirdLine [100, 200, 300] = some [100, 200, 300] := by
  have l100 : Int.log 10 (100 : ℚ) = 2 := by
    rw [Int.log_ofNat, show Nat.log 10 100 = 2 from
      Nat.log_eq_of_pow_le_of_lt_pow (by norm_num) (by norm_num)]
    rfl
  have l200 : Int.log 10 (200 : ℚ) = 2 := by
    rw [Int.log_ofNat, show Nat.log 10 200 = 2 from
      Nat.log_eq_of_pow_le_of_lt_pow (by norm_num) (by norm_num)]
    rfl
  have l300 : Int.log 10 (300 : ℚ) = 2 := by
    rw [Int.log_ofNat, show Nat.log 10 300 = 2 from
      Nat.log_eq_of_pow_le_of_lt_pow (by norm_num) (by norm_num)]
    rfl
  have h100 : sigRound6 100 = 100 :=
    sigRound6_eq_self 100 2 100000 (by norm_num) l100 (by norm_num)
  have h200 : sigRound6 200 = 200 :=
    sigRound6_eq_self 200 2 200000 (by norm_num) l200 (by norm_num)
  have h300 : sigRound6 300 = 300 :=
    sigRound6_eq_self 300 2 300000 (by norm_num) l300 (by norm_num)
  refine export_thirdline_roundtrip.2 [100, 200, 300] (by simp) ?_
  intro x hx
  simp only [List.mem_cons, List.not_mem_nil, or_false] at hx
  rcases hx with rfl | rfl | rfl
  · exact h100
  · exact h200
  · exact h300
